import Mathlib

/-!
Shallow embedding of the logrus datadog hook (package datadog, files
datadog.go and the options-configured variant) for checking the
specification claims. The embedding models the batching consumer loop,
the send retry loop, the shutdown paths of both Close implementations,
the unbatched Fire path, and the construction-time max-retries fallback.
Encoded log lines are opaque to the batching logic except for their byte
length, so a line is modelled as an identifier together with its size.
The HTTP transport is an external collaborator and is modelled as a
predicate giving the outcome of each attempt.
-/

namespace LogrusDatadog

/-- Constant maxContentSize from datadog.go: the maximum content size per
request is 5MB. -/
def maxContentSize : Nat := 5 * 1024 * 1024

/-- Constant maxLogSize from datadog.go: the maximum size for a single log
is 256kB. -/
def maxLogSize : Nat := 256 * 1024

/-- Constant maxLogCount from datadog.go: the maximum amount of logs that
can be sent in a single request is 1000. -/
def maxLogCount : Nat := 1000

/-- Constant defaultMaxRetries from datadog.go. -/
def defaultMaxRetries : Int := 5

/-- An encoded log line as seen by the batching logic: the code only ever
reads the byte length of the formatter output and appends the bytes as an
opaque value, so a line is an identifier plus its length in bytes. -/
structure Line where
  id : Nat
  size : Nat
deriving DecidableEq

/-- Result of the external formatter for one entry: either an encoding
error or an encoded line. Mirrors the err and formatted values returned
by h.formatter.Format in the consumer loop. -/
inductive FmtResult where
  | fmtError : FmtResult
  | line : Line → FmtResult
deriving DecidableEq

/-- Total byte size of a batch, matching the running size variable of the
consumer loop, which sums len of each appended line. -/
def sumSize (b : List Line) : Nat := (b.map Line.size).sum

/-- Byte length of the framed payload built by send: an opening bracket,
the lines joined by commas, and a closing bracket, so for a non-empty
batch of n lines it is the line bytes plus n + 1 framing bytes; for an
empty batch the buffer stays empty. -/
def framedSize (b : List Line) : Nat :=
  if b = [] then 0 else sumSize b + b.length + 1

/-- Outcome of one call to send: skipped without any request (empty key,
empty batch or empty payload), delivered after a number of attempts, or a
terminal failure reported after a number of attempts. The attempts field
counts the POST requests issued. -/
inductive SendOutcome where
  | skipped : SendOutcome
  | delivered : Nat → SendOutcome
  | terminalFailure : Nat → SendOutcome
deriving DecidableEq

/-- The retry loop at the end of send, translated clause by clause. The
argument ok gives the outcome of each attempt: ok n is true when attempt
number n completes without transport error and with status below 400. The
counter i holds the number of failed attempts so far; on a failure the
code increments it and reports a terminal failure when MaxRetry is
negative or the incremented counter has reached MaxRetry, otherwise it
retries immediately. -/
def sendLoop (maxRetry : Int) (ok : Nat → Bool) (i : Nat) : SendOutcome :=
  if ok i then .delivered (i + 1)
  else if maxRetry < 0 ∨ maxRetry ≤ (i : Int) + 1 then .terminalFailure (i + 1)
  else sendLoop maxRetry ok (i + 1)
termination_by maxRetry.toNat - i
decreasing_by
  simp_wf
  omega

/-- The send function: it returns immediately when the api key is empty or
the batch is empty, returns when the framed buffer is empty, and otherwise
enters the retry loop with the failure counter at zero. -/
def send (apiKey : String) (maxRetry : Int) (batch : List Line)
    (ok : Nat → Bool) : SendOutcome :=
  if apiKey = "" ∨ batch = [] then .skipped
  else if framedSize batch = 0 then .skipped
  else sendLoop maxRetry ok 0

/-- State of the consumer loop in batch: the current batch and the running
byte size. -/
structure BatchState where
  batch : List Line
  size : Nat
deriving DecidableEq

/-- Errors the consumer loop reports before returning: a formatter error,
or a single line larger than maxLogSize. -/
inductive Report where
  | encodeFailure : Report
  | oversizeLine : Line → Report
deriving DecidableEq

/-- Result of running the consumer loop over a list of formatter results:
the batches handed to send together with the line whose arrival triggered
each handoff, the final accumulator state, whether the loop returned early
(on a formatter error or an oversize line), and the errors it reported. -/
structure RunResult where
  flushed : List (List Line × Line)
  final : BatchState
  halted : Bool
  reports : List Report
deriving DecidableEq

/-- The consumer goroutine of batch, translated statement by statement.
For each entry: if formatting failed the error is reported and the
goroutine returns, leaving the remaining entries unprocessed. Otherwise,
if the running size plus the new line length reaches maxContentSize, or
the batch already holds maxLogCount lines, the current batch is handed to
send and a fresh batch is started. Then, if the line itself exceeds
maxLogSize, the error is reported and the goroutine returns. Otherwise
the line is appended and the size increased. -/
def consume : List FmtResult → BatchState → RunResult
  | [], st => ⟨[], st, false, []⟩
  | FmtResult.fmtError :: _, st => ⟨[], st, true, [Report.encodeFailure]⟩
  | FmtResult.line l :: rest, st =>
    let doFlush : Bool :=
      decide (maxContentSize ≤ st.size + l.size) || decide (st.batch.length = maxLogCount)
    let pre : List (List Line × Line) × BatchState :=
      if doFlush then ([(st.batch, l)], ⟨[], 0⟩) else ([], st)
    if maxLogSize < l.size then
      ⟨pre.1, pre.2, true, [Report.oversizeLine l]⟩
    else
      let r := consume rest ⟨pre.2.batch ++ [l], pre.2.size + l.size⟩
      ⟨pre.1 ++ r.flushed, r.final, r.halted, r.reports⟩

/-- The handoffs that actually result in a request: send returns without
doing anything for an empty batch, so empty handoffs are dropped. -/
def sentBatches (hoffs : List (List Line × Line)) : List (List Line) :=
  (hoffs.map Prod.fst).filter (fun b => !b.isEmpty)

/-- Batches delivered across the whole lifecycle of the options-configured
hook, ending with Close. Its tick goroutine has a done branch that sends
the remaining batch once Close signals done, after the intake channel has
been closed and drained, so the deliveries are the threshold handoffs
followed by the final batch when it is non-empty. -/
def closeDeliveriesOptions (rs : List FmtResult) : List (List Line) :=
  let r := consume rs ⟨[], 0⟩
  sentBatches r.flushed ++ (if r.final.batch.isEmpty then [] else [r.final.batch])

/-- Batches delivered across the whole lifecycle of the env-configured
hook in datadog.go, ending with Close. Its Close closes the intake
channel, stops the ticker and waits; its tick goroutine has no shutdown
branch and no final send happens, so only the threshold handoffs are ever
delivered. -/
def closeDeliveriesEnv (rs : List FmtResult) : List (List Line) :=
  sentBatches (consume rs ⟨[], 0⟩).flushed

/-- Whether New starts the batch worker: in the options-configured New the
batch goroutine is started exactly when ClientBatchingEnabled is true. -/
def hookBatchWorkerStarted (clientBatchingEnabled : Bool) : Bool :=
  clientBatchingEnabled

/-- The handoffs produced by one call to send at the granularity of
batches: nothing when the key or the batch is empty, otherwise the one
batch. -/
def sendHandoff (apiKey : String) (b : List Line) : List (List Line) :=
  if apiKey = "" ∨ b = [] then [] else [b]

/-- Result of one Fire call in the options-configured hook: the entry is
queued on the intake channel when batching is enabled; otherwise the entry
is formatted, a formatting error is returned to the caller, and on
success the single formatted line is sent synchronously as a batch of
one. -/
inductive FireResult where
  | queued : FireResult
  | formatError : FireResult
  | sent : List (List Line) → FireResult
deriving DecidableEq

/-- Fire of the options-configured hook, translated from part_000. -/
def fire (clientBatchingEnabled : Bool) (apiKey : String)
    (r : FmtResult) : FireResult :=
  if clientBatchingEnabled then .queued
  else
    match r with
    | .fmtError => .formatError
    | .line l => .sent (sendHandoff apiKey [l])

/-- The fields of the env-configured hook relevant to construction. -/
structure EnvHook where
  apiKey : String
  maxRetry : Int
deriving DecidableEq

/-- Construction of the env-configured hook in datadog.go, restricted to
the api key resolution and the max-retries resolution. The argument
parsedMaxRetries is the outcome of strconv.ParseInt on the environment
value DATADOG_MAX_RETRIES (parsing is an external collaborator); when it
fails the code logs the error and falls back to defaultMaxRetries, and
construction proceeds. Construction fails only when the resolved api key
is empty. -/
def newEnv (apiKeyArg : Option String) (envApiKey : String)
    (parsedMaxRetries : Option Int) : Option EnvHook :=
  let key := match apiKeyArg with
    | some k => k
    | none => envApiKey
  if key = "" then none
  else
    some ⟨key, match parsedMaxRetries with
      | some v => v
      | none => defaultMaxRetries⟩

/-- Helper: when every attempt fails, the retry loop started at failure
count i reports a terminal failure after max maxRetry.toNat (i + 1)
attempts in total. In particular a negative maxRetry terminates after the
very first failed attempt. -/
theorem sendLoop_allFail (maxRetry : Int) (ok : Nat → Bool)
    (h : ∀ n, ok n = false) :
    ∀ i, sendLoop maxRetry ok i =
      SendOutcome.terminalFailure (max maxRetry.toNat (i + 1)) := by
  have key : ∀ fuel i, maxRetry.toNat - i ≤ fuel →
      sendLoop maxRetry ok i =
        SendOutcome.terminalFailure (max maxRetry.toNat (i + 1)) := by
    intro fuel
    induction fuel with
    | zero =>
      intro i hle
      rw [sendLoop]
      simp only [h, Bool.false_eq_true, if_false]
      rw [if_pos]
      · have : maxRetry.toNat ≤ i + 1 := by omega
        rw [Nat.max_eq_right this]
      · omega
    | succ n ih =>
      intro i hle
      rw [sendLoop]
      simp only [h, Bool.false_eq_true, if_false]
      by_cases hstop : maxRetry < 0 ∨ maxRetry ≤ (i : Int) + 1
      · rw [if_pos hstop]
        have : maxRetry.toNat ≤ i + 1 := by omega
        rw [Nat.max_eq_right this]
      · rw [if_neg hstop]
        push_neg at hstop
        have hlt : (i : Int) + 1 < maxRetry := hstop.2
        have h1 : i + 1 < maxRetry.toNat := by omega
        have := ih (i + 1) (by omega)
        rw [this]
        have e1 : max maxRetry.toNat (i + 1 + 1) = maxRetry.toNat := by omega
        have e2 : max maxRetry.toNat (i + 1) = maxRetry.toNat := by omega
        rw [e1, e2]
  intro i
  exact key (maxRetry.toNat - i) i le_rfl

/-- Helper: the retry loop always issues at least one attempt beyond the
failures already counted: its result records at least i + 1 attempts. -/
theorem sendLoop_attempts (maxRetry : Int) (ok : Nat → Bool) :
    ∀ i, ∃ k, i + 1 ≤ k ∧
      (sendLoop maxRetry ok i = SendOutcome.delivered k ∨
       sendLoop maxRetry ok i = SendOutcome.terminalFailure k) := by
  have key : ∀ fuel i, maxRetry.toNat - i ≤ fuel →
      ∃ k, i + 1 ≤ k ∧
        (sendLoop maxRetry ok i = SendOutcome.delivered k ∨
         sendLoop maxRetry ok i = SendOutcome.terminalFailure k) := by
    intro fuel
    induction fuel with
    | zero =>
      intro i hle
      rw [sendLoop]
      by_cases hok : ok i
      · exact ⟨i + 1, le_rfl, by simp [hok]⟩
      · refine ⟨i + 1, le_rfl, Or.inr ?_⟩
        simp only [hok, Bool.false_eq_true, if_false]
        rw [if_pos]
        omega
    | succ n ih =>
      intro i hle
      rw [sendLoop]
      by_cases hok : ok i
      · exact ⟨i + 1, le_rfl, by simp [hok]⟩
      · simp only [hok, Bool.false_eq_true, if_false]
        by_cases hstop : maxRetry < 0 ∨ maxRetry ≤ (i : Int) + 1
        · exact ⟨i + 1, le_rfl, Or.inr (by rw [if_pos hstop])⟩
        · rw [if_neg hstop]
          push_neg at hstop
          obtain ⟨k, hk, hres⟩ := ih (i + 1) (by omega)
          exact ⟨k, by omega, hres⟩
  intro i
  exact key (maxRetry.toNat - i) i le_rfl

/-- Helper: for a non-empty batch and non-empty key, send enters the retry
loop at failure count zero. -/
theorem send_eq_sendLoop (apiKey : String) (maxRetry : Int)
    (batch : List Line) (ok : Nat → Bool)
    (hk : apiKey ≠ "") (hb : batch ≠ []) :
    send apiKey maxRetry batch ok = sendLoop maxRetry ok 0 := by
  unfold send
  rw [if_neg (by simp [hk, hb])]
  rw [if_neg]
  unfold framedSize
  rw [if_neg hb]
  omega

/-- Claim C1, counterexample. The claim states that a negative MaxRetry
makes the Sender retry indefinitely on failure, hence never report a
terminal delivery failure. In the code the failure branch tests MaxRetry
less than zero first and reports the terminal failure at once, so with
MaxRetry equal to minus one and a transport that always fails, send
reports a terminal failure after exactly one attempt. -/
theorem C1_counterexample_negative_maxRetry_is_terminal :
    send "k" (-1) [⟨0, 3⟩] (fun _ => false) = SendOutcome.terminalFailure 1 := by
  rw [send_eq_sendLoop "k" (-1) [⟨0, 3⟩] (fun _ => false) (by decide) (by decide)]
  rw [sendLoop_allFail (-1) (fun _ => false) (fun _ => rfl) 0]
  norm_num

/-- Claim C1, amended. For every batch handed to the Sender with every
attempt failing, the Sender stops and reports a terminal delivery failure
after exactly max MaxRetry.toNat 1 attempts: a negative MaxRetry makes
the first failed attempt immediately terminal rather than retrying
indefinitely, MaxRetry zero still issues one attempt whose failure is
terminal, and for MaxRetry at least one the attempt counter stops exactly
when it reaches MaxRetry. -/
theorem C1_amended_send_allFail_terminal (maxRetry : Int) (key : String)
    (batch : List Line) (ok : Nat → Bool)
    (hk : key ≠ "") (hb : batch ≠ []) (hfail : ∀ n, ok n = false) :
    send key maxRetry batch ok =
      SendOutcome.terminalFailure (max maxRetry.toNat 1) := by
  rw [send_eq_sendLoop key maxRetry batch ok hk hb]
  rw [sendLoop_allFail maxRetry ok hfail 0]

/-- Witness for Claim C1: at MaxRetry zero, a non-empty key, a singleton
batch and an always-failing transport, the hypotheses hold and send
reports a terminal failure after one attempt. -/
theorem C1_witness :
    "k" ≠ "" ∧ ([(⟨1, 7⟩ : Line)] ≠ []) ∧
      send "k" 0 [⟨1, 7⟩] (fun _ => false) = SendOutcome.terminalFailure 1 := by
  refine ⟨by decide, by decide, ?_⟩
  have := C1_amended_send_allFail_terminal 0 "k" [⟨1, 7⟩] (fun _ => false)
    (by decide) (by decide) (fun _ => rfl)
  simpa using this

/-- Claim C6. Given a Sender whose every delivery attempt fails and a
MaxRetry of at least one, exactly MaxRetry attempts are made before the
terminal failure is reported; in particular for MaxRetry five there are
exactly five attempts and no sixth. The MaxRetry zero case is settled
separately under claim C9: the loop still makes one attempt there. -/
theorem C6_send_allFail_exactly_maxRetry_attempts (m : Int) (hm : 1 ≤ m)
    (key : String) (batch : List Line) (ok : Nat → Bool)
    (hk : key ≠ "") (hb : batch ≠ []) (hfail : ∀ n, ok n = false) :
    send key m batch ok = SendOutcome.terminalFailure m.toNat := by
  rw [send_eq_sendLoop key m batch ok hk hb]
  rw [sendLoop_allFail m ok hfail 0]
  congr 1
  omega

/-- Witness for Claim C6: at MaxRetry five with an always-failing
transport, send reports the terminal failure after exactly five
attempts. -/
theorem C6_witness :
    (1 : Int) ≤ 5 ∧ "k" ≠ "" ∧ ([(⟨0, 8⟩ : Line)] ≠ []) ∧
      send "k" 5 [⟨0, 8⟩] (fun _ => false) = SendOutcome.terminalFailure 5 := by
  refine ⟨by norm_num, by decide, by decide, ?_⟩
  have := C6_send_allFail_exactly_maxRetry_attempts 5 (by norm_num) "k"
    [⟨0, 8⟩] (fun _ => false) (by decide) (by decide) (fun _ => rfl)
  simpa using this

/-- Claim C9. For every non-empty batch and non-empty api key the retry
loop performs at least one delivery attempt regardless of the MaxRetry
value, and with MaxRetry zero a single failed attempt is immediately
terminal. -/
theorem C9_send_at_least_one_attempt (maxRetry : Int) (key : String)
    (batch : List Line) (ok : Nat → Bool)
    (hk : key ≠ "") (hb : batch ≠ []) :
    (∃ k, 1 ≤ k ∧
      (send key maxRetry batch ok = SendOutcome.delivered k ∨
       send key maxRetry batch ok = SendOutcome.terminalFailure k)) ∧
    (maxRetry = 0 → ok 0 = false →
      send key maxRetry batch ok = SendOutcome.terminalFailure 1) := by
  have hsl := send_eq_sendLoop key maxRetry batch ok hk hb
  constructor
  · obtain ⟨k, hk1, hres⟩ := sendLoop_attempts maxRetry ok 0
    exact ⟨k, hk1, by rwa [hsl]⟩
  · intro h0 hok
    subst h0
    rw [hsl, sendLoop]
    simp only [hok, Bool.false_eq_true, if_false]
    rw [if_pos (by norm_num)]

/-- Witness for Claim C9: with MaxRetry zero, a non-empty key, a singleton
batch and a transport that fails the first attempt, one attempt is made
and its failure is terminal. -/
theorem C9_witness :
    "k" ≠ "" ∧ ([(⟨0, 2⟩ : Line)] ≠ []) ∧
      send "k" 0 [⟨0, 2⟩] (fun _ => false) = SendOutcome.terminalFailure 1 := by
  refine ⟨by decide, by decide, ?_⟩
  exact (C9_send_at_least_one_attempt 0 "k" [⟨0, 2⟩] (fun _ => false)
    (by decide) (by decide)).2 rfl rfl

/-- Helper: one consumer step on a line that triggers the handoff guard
and is itself within the single-line maximum hands off the current batch
with the arriving line as trigger and continues on a fresh batch holding
just that line. -/
theorem consume_cons_flush (l : Line) (rest : List FmtResult)
    (st : BatchState)
    (hg : maxContentSize ≤ st.size + l.size ∨ st.batch.length = maxLogCount)
    (hsz : l.size ≤ maxLogSize) :
    consume (FmtResult.line l :: rest) st =
      ⟨(st.batch, l) :: (consume rest ⟨[l], l.size⟩).flushed,
        (consume rest ⟨[l], l.size⟩).final,
        (consume rest ⟨[l], l.size⟩).halted,
        (consume rest ⟨[l], l.size⟩).reports⟩ := by
  have hd : (decide (maxContentSize ≤ st.size + l.size) ||
      decide (st.batch.length = maxLogCount)) = true := by
    rcases hg with h | h <;> simp [h]
  rw [consume]
  simp only [hd, if_true]
  rw [if_neg (Nat.not_lt.mpr hsz)]
  simp

/-- Helper: one consumer step on a line that does not trigger the handoff
guard and is within the single-line maximum just appends the line. -/
theorem consume_cons_noflush (l : Line) (rest : List FmtResult)
    (st : BatchState)
    (hs : st.size + l.size < maxContentSize)
    (hc : st.batch.length ≠ maxLogCount)
    (hsz : l.size ≤ maxLogSize) :
    consume (FmtResult.line l :: rest) st =
      consume rest ⟨st.batch ++ [l], st.size + l.size⟩ := by
  have hd : (decide (maxContentSize ≤ st.size + l.size) ||
      decide (st.batch.length = maxLogCount)) = false := by
    simp [Nat.not_le.mpr hs, hc]
  rw [consume]
  simp only [hd, if_false, Bool.false_eq_true]
  rw [if_neg (Nat.not_lt.mpr hsz)]
  simp

/-- Helper: the single-line maximum is below the content maximum, and the
line count maximum is at least one. -/
theorem maxLogSize_lt_maxContentSize : maxLogSize < maxContentSize ∧ 1 ≤ maxLogCount := by
  decide

/-- Helper invariant for the threshold claims: over any run of the
consumer on successfully encoded lines each within the single-line
maximum, starting from a state whose size field matches its batch and
which is within both thresholds, every handoff was forced by the guard
(the arriving line would have reached or exceeded the content maximum, or
the batch was at the line count maximum) and every handed-off batch is
strictly below the content maximum and at most the line count maximum. -/
theorem consume_flushed_spec (lines : List Line) : ∀ (st : BatchState),
    (∀ l ∈ lines, l.size ≤ maxLogSize) →
    st.size = sumSize st.batch → st.size < maxContentSize →
    st.batch.length ≤ maxLogCount →
    ∀ B trig, (B, trig) ∈ (consume (lines.map FmtResult.line) st).flushed →
      (maxContentSize ≤ sumSize B + trig.size ∨ B.length = maxLogCount) ∧
      sumSize B < maxContentSize ∧ B.length ≤ maxLogCount := by
  induction lines with
  | nil =>
    intro st _ _ _ _ B trig hmem
    simp [consume] at hmem
  | cons l rest ih =>
    intro st hwf hseq hslt hclen B trig hmem
    have hlsz : l.size ≤ maxLogSize := hwf l (by simp)
    by_cases hg : maxContentSize ≤ st.size + l.size ∨ st.batch.length = maxLogCount
    · rw [List.map_cons, consume_cons_flush l _ st hg hlsz] at hmem
      simp only [List.mem_cons] at hmem
      rcases hmem with heq | htail
      · have hB : B = st.batch := congrArg Prod.fst heq
        have ht : trig = l := congrArg Prod.snd heq
        subst hB; subst ht
        refine ⟨?_, by omega, hclen⟩
        rw [← hseq]
        exact hg
      · refine ih ⟨[l], l.size⟩ (fun x hx => hwf x (by simp [hx])) ?_ ?_ ?_ B trig htail
        · simp [sumSize]
        · show l.size < maxContentSize
          have := maxLogSize_lt_maxContentSize
          omega
        · have := maxLogSize_lt_maxContentSize
          simpa using this.2
    · push_neg at hg
      rw [List.map_cons, consume_cons_noflush l _ st hg.1 hg.2 hlsz] at hmem
      refine ih ⟨st.batch ++ [l], st.size + l.size⟩
        (fun x hx => hwf x (by simp [hx])) ?_ hg.1 ?_ B trig hmem
      · simp [sumSize, hseq]
      · simp only [List.length_append, List.length_cons, List.length_nil]
        omega

/-- Helper for the in-order claims: when every line is within the
single-line maximum, the total size added to the starting size stays
strictly below the content maximum, and the combined line count stays at
most the count maximum, the consumer performs no handoff and appends all
lines in order. -/
theorem consume_no_flush (lines : List Line) : ∀ (st : BatchState),
    (∀ l ∈ lines, l.size ≤ maxLogSize) →
    st.size + sumSize lines < maxContentSize →
    st.batch.length + lines.length ≤ maxLogCount →
    consume (lines.map FmtResult.line) st =
      ⟨[], ⟨st.batch ++ lines, st.size + sumSize lines⟩, false, []⟩ := by
  induction lines with
  | nil =>
    intro st _ _ _
    simp [consume, sumSize]
  | cons l rest ih =>
    intro st hwf hs hc
    have hsum : sumSize (l :: rest) = l.size + sumSize rest := by
      simp [sumSize]
    have hlen : st.batch.length ≠ maxLogCount := by
      simp only [List.length_cons] at hc
      omega
    rw [List.map_cons, consume_cons_noflush l _ st (by omega) hlen (hwf l (by simp))]
    rw [ih ⟨st.batch ++ [l], st.size + l.size⟩ (fun x hx => hwf x (by simp [hx]))
      (by simp only; omega)
      (by simp only [List.length_append, List.length_cons, List.length_nil] at hc ⊢; omega)]
    simp only [List.append_assoc, List.singleton_append, hsum]
    rw [Nat.add_assoc]

/-- Claim C2, evaluation at the failing input. An oversize line (262145
bytes, one over maxLogSize) arriving after a normal line and before
another normal line makes the consumer loop return: the run reports the
oversize error and the oversize line is in no handed-off batch, but the
loop halts, so the sibling line appended after it is never processed and
appears in no delivery, including the final one at Close. The claim and
the spec say the oversize line alone is dropped and processing of sibling
lines is unaffected. -/
theorem C2_oversize_line_halts_worker :
    consume [FmtResult.line ⟨1, 10⟩, FmtResult.line ⟨2, 262145⟩,
        FmtResult.line ⟨3, 10⟩] ⟨[], 0⟩ =
      ⟨[], ⟨[⟨1, 10⟩], 10⟩, true, [Report.oversizeLine ⟨2, 262145⟩]⟩ ∧
    closeDeliveriesOptions [FmtResult.line ⟨1, 10⟩, FmtResult.line ⟨2, 262145⟩,
        FmtResult.line ⟨3, 10⟩] = [[⟨1, 10⟩]] := by
  decide

/-- Claim C3, evaluation at the failing input. With one entry buffered
below every threshold, the env-configured implementation in datadog.go
delivers nothing at Close: its Close only closes the intake channel and
stops the ticker, and its tick goroutine has no shutdown branch, so the
buffered batch is never handed to send. The options-configured
implementation delivers the buffered entry through the done branch of its
tick goroutine, as the claim describes. -/
theorem C3_env_close_drops_buffered_batch :
    closeDeliveriesEnv [FmtResult.line ⟨1, 10⟩] = [] ∧
    closeDeliveriesOptions [FmtResult.line ⟨1, 10⟩] = [[⟨1, 10⟩]] := by
  decide

/-- Claim C4, evaluation at the failing input. A formatter error makes
the consumer loop report the error, drop the entry and return: the entry
fired after the failing one is never processed and appears in no
delivery. The claim and the spec say processing of subsequent entries
continues. -/
theorem C4_encode_error_halts_worker :
    consume [FmtResult.fmtError, FmtResult.line ⟨1, 10⟩] ⟨[], 0⟩ =
      ⟨[], ⟨[], 0⟩, true, [Report.encodeFailure]⟩ ∧
    closeDeliveriesOptions [FmtResult.fmtError, FmtResult.line ⟨1, 10⟩] = [] := by
  decide

/-- Twenty lines of 262144 bytes each: their sizes sum to exactly
maxContentSize, so no append ever makes the batch strictly exceed the
content maximum, and the count stays far below the line count maximum. -/
def linesC5 : List Line := (List.range 20).map (fun k => ⟨k + 1, 262144⟩)

/-- The batch the consumer hands off on the input linesC5: the first
nineteen lines. -/
def batchC5 : List Line := (List.range 19).map (fun k => ⟨k + 1, 262144⟩)

/-- The line whose arrival triggers the handoff on the input linesC5. -/
def trigC5 : Line := ⟨20, 262144⟩

/-- Claim C5, counterexample. The claim says the Accumulator never
flushes before the point where the next append would exceed a threshold.
On twenty lines of 262144 bytes the sizes sum to exactly maxContentSize
and the count is twenty, so no append ever pushes the batch beyond either
threshold; yet the code compares with greater-or-equal and hands off the
first nineteen lines when the twentieth arrives. -/
theorem C5_counterexample_flush_at_exact_boundary :
    sumSize linesC5 = maxContentSize ∧ linesC5.length = 20 ∧
    (consume (linesC5.map FmtResult.line) ⟨[], 0⟩).flushed =
      [(batchC5, trigC5)] := by
  decide

/-- Claim C5, amended: for every sequence of encoded lines each within
the single-line maximum, the Accumulator hands off the current batch
exactly at the point where the next append would reach or exceed the max
content size, or where the batch already holds the max line count — never
flushing otherwise and never handing off a batch at or over the content
maximum or over the line count maximum. -/
theorem C5_amended_flush_exactly_at_reach_or_exceed
    (lines : List Line) (hwf : ∀ l ∈ lines, l.size ≤ maxLogSize)
    (B : List Line) (trig : Line)
    (hmem : (B, trig) ∈ (consume (lines.map FmtResult.line) ⟨[], 0⟩).flushed) :
    (maxContentSize ≤ sumSize B + trig.size ∨ B.length = maxLogCount) ∧
    sumSize B < maxContentSize ∧ B.length ≤ maxLogCount :=
  consume_flushed_spec lines ⟨[], 0⟩ hwf (by simp [sumSize]) (by decide)
    (by decide) B trig hmem

/-- Witness for Claim C5: on the concrete input linesC5 the handed-off
batch batchC5 with trigger trigC5 satisfies the amended
characterization. -/
theorem C5_witness :
    (∀ l ∈ linesC5, l.size ≤ maxLogSize) ∧
    ((batchC5, trigC5) ∈ (consume (linesC5.map FmtResult.line) ⟨[], 0⟩).flushed) ∧
    ((maxContentSize ≤ sumSize batchC5 + trigC5.size ∨ batchC5.length = maxLogCount) ∧
      sumSize batchC5 < maxContentSize ∧ batchC5.length ≤ maxLogCount) := by
  refine ⟨by decide, by decide, ?_⟩
  exact C5_amended_flush_exactly_at_reach_or_exceed linesC5 (by decide)
    batchC5 trigC5 (by decide)

/-- Claim C7. For every non-empty sequence of Append calls whose lines
are each within the single-line maximum, whose encoded sizes sum below
the max content size and whose count stays below the max line count,
exactly one batch is delivered across the lifecycle ending at Close, and
it contains all encoded lines in call order. -/
theorem C7_single_batch_all_lines_in_order (lines : List Line)
    (hne : lines ≠ []) (hwf : ∀ l ∈ lines, l.size ≤ maxLogSize)
    (hsum : sumSize lines < maxContentSize)
    (hcount : lines.length < maxLogCount) :
    closeDeliveriesOptions (lines.map FmtResult.line) = [lines] := by
  unfold closeDeliveriesOptions
  rw [consume_no_flush lines ⟨[], 0⟩ hwf (by simpa using hsum) (by simpa using hcount.le)]
  simp [sentBatches, hne]

/-- Witness for Claim C7: two small lines are delivered as one batch in
call order at Close. -/
theorem C7_witness :
    ([(⟨1, 10⟩ : Line), ⟨2, 20⟩] ≠ []) ∧
    (∀ l ∈ [(⟨1, 10⟩ : Line), ⟨2, 20⟩], l.size ≤ maxLogSize) ∧
    sumSize [⟨1, 10⟩, ⟨2, 20⟩] < maxContentSize ∧
    ([(⟨1, 10⟩ : Line), ⟨2, 20⟩] : List Line).length < maxLogCount ∧
    closeDeliveriesOptions ([(⟨1, 10⟩ : Line), ⟨2, 20⟩].map FmtResult.line) =
      [[⟨1, 10⟩, ⟨2, 20⟩]] := by
  refine ⟨by decide, by decide, by decide, by decide, ?_⟩
  exact C7_single_batch_all_lines_in_order [⟨1, 10⟩, ⟨2, 20⟩] (by decide)
    (by decide) (by decide) (by decide)

/-- Claim C8. When client batching is disabled the batch worker listening
to the ticker is not started, and every Fire call on a successfully
formatted entry results in exactly one synchronous handoff of a batch of
size one before Fire returns. -/
theorem C8_unbatched_fire_single_line_delivery :
    hookBatchWorkerStarted false = false ∧
    ∀ (apiKey : String) (l : Line), apiKey ≠ "" →
      fire false apiKey (FmtResult.line l) = FireResult.sent [[l]] := by
  refine ⟨rfl, ?_⟩
  intro apiKey l hk
  simp [fire, sendHandoff, hk]

/-- Witness for Claim C8: with a non-empty api key and a concrete line,
Fire with batching disabled performs exactly one single-line handoff. -/
theorem C8_witness :
    "k" ≠ "" ∧
    fire false "k" (FmtResult.line ⟨1, 5⟩) = FireResult.sent [[⟨1, 5⟩]] :=
  ⟨by decide, C8_unbatched_fire_single_line_delivery.2 "k" ⟨1, 5⟩ (by decide)⟩

/-- Claim C10. For every value of DATADOG_MAX_RETRIES that does not parse
as an integer (the parse outcome is none), construction with a valid api
key still succeeds, and the MaxRetry of the hook is the default of
five. -/
theorem C10_invalid_max_retries_uses_default (key envKey : String)
    (hk : key ≠ "") :
    newEnv (some key) envKey none = some ⟨key, 5⟩ := by
  simp [newEnv, hk, defaultMaxRetries]

/-- Witness for Claim C10: a concrete valid key with a failed parse gives
a hook with MaxRetry five. -/
theorem C10_witness :
    "apikey" ≠ "" ∧
    newEnv (some "apikey") "" none = some ⟨"apikey", 5⟩ :=
  ⟨by decide, C10_invalid_max_retries_uses_default "apikey" "" (by decide)⟩

end LogrusDatadog
